import Mathlib

/-!
# Verification of the YB mini-compiler (tokenizer, parser, code generator)

Shallow embedding of the compiler's three subsystems, translated from the
C++ sources:
* the lexical analyzer (`Tokenizer::tokenize`),
* the recursive-descent parser (`Parser`, final version),
* the AST-walking code generator (`Generator`, final version).

Conventions used throughout:
* The C++ source string is a `List Char`; the cursor is a `Nat` index.
* `std::optional` is `Option`; a C++ function that can fail returns an
  `Option` result together with the updated cursor.
* Emitted assembly is a `List String`, one entry per emitted line, without
  the trailing newline character.
* Out-of-bounds reads of the token vector (undefined behaviour in C++) are
  instrumented: the read returns a default `UNKNOWN` token and a Boolean
  flag records that an out-of-bounds access happened.
-/

/-! ## Tokenizer (Tokenizer.hpp, final version) -/

/-- Token kinds, exactly the `TokenType` enumeration of the source. -/
inductive TokenType where
  | EXIT | LET | INT_LITERAL | SEMICOLON | IDENTIFIER
  | LPARENTHESIS | RPARENTHESIS | EQUAL | PLUS | STAR | MINUS
  | DIVIDE | MODULO | LBRACE | RBRACE | IF | EGAL | NEGAL
  | GREAT | LESS | GREAT_EQUAL | LESS_EQUAL | ELSE | AND | OR
  | LBRACKET | RBRACKET | COMMA | WHILE | PRINT | LENGTH | UNKNOWN
  deriving DecidableEq, Repr

/-- A token: a kind and an optional lexeme, as in the source `struct Token`. -/
structure Token where
  type : TokenType
  value : Option String
  deriving DecidableEq, Repr

/-- `std::isspace` in the C locale, restricted to ASCII. -/
def isSpaceC (c : Char) : Bool :=
  c = ' ' || c = '\t' || c = '\n' || c = '\x0b' || c = '\x0c' || c = '\x0d'

/-- `std::isdigit` (ASCII). -/
def isDigitC (c : Char) : Bool := '0' ≤ c && c ≤ '9'

/-- `std::isalpha` (ASCII, C locale). -/
def isAlphaC (c : Char) : Bool := ('a' ≤ c && c ≤ 'z') || ('A' ≤ c && c ≤ 'Z')

/-- `std::isalnum` (ASCII, C locale). -/
def isAlnumC (c : Char) : Bool := isAlphaC c || isDigitC c

/-- Read the character at `pos`; out of bounds gives NUL (no branch of the
tokenizer loop accepts NUL, and the loop itself is guarded by
`pos < length`, so this default is never acted upon). -/
def charAt (s : List Char) (pos : Nat) : Char := s.getD pos (Char.ofNat 0)

/-- Cursor after the maximal run of characters satisfying `p`, starting at
`pos` — the shape of the `while (pos < n && p(s[pos])) pos++` loops in
`consumeIdentifier`, `consumeNumber`, `StartNumToken` and line comments. -/
def scanWhile (s : List Char) (p : Char → Bool) (pos : Nat) : Nat :=
  if _h : pos < s.length then
    if p (charAt s pos) then scanWhile s p (pos + 1) else pos
  else pos
termination_by s.length - pos

/-- Cursor where the block-comment scan stops: the source loop
`while (pos < n && !(s[pos] == '*' && pos+1 < n && s[pos+1] == '/')) pos++`. -/
def blockScan (s : List Char) (pos : Nat) : Nat :=
  if _h : pos < s.length then
    if charAt s pos = '*' ∧ pos + 1 < s.length ∧ charAt s (pos + 1) = '/' then pos
    else blockScan s (pos + 1)
  else pos
termination_by s.length - pos

/-- The substring `[a, b)` of the source, as collected one character at a
time by the consume helpers. -/
def strSlice (s : List Char) (a b : Nat) : String := String.mk ((s.drop a).take (b - a))

/-- The keyword table of `Tokenizer::tokenize`. -/
def keywordLookup (id : String) : TokenType :=
  if id = "exit" then .EXIT
  else if id = "let" then .LET
  else if id = "if" then .IF
  else if id = "else" then .ELSE
  else if id = "while" then .WHILE
  else if id = "print" then .PRINT
  else if id = "len" then .LENGTH
  else .IDENTIFIER

/-- The unterminated-block-comment diagnostic, the only message
`Tokenizer::tokenize` can emit. -/
def unterminatedCommentWarning : String :=
  "Erreur: YOOO WESH ferme le multiligne toi la avec ta grosse clavicie la TSSS !!!!"

/-- One iteration of the main `tokenize` while-loop, entered with
`pos < s.length`: returns the token pushed (if any), the diagnostic
emitted (if any) and the new cursor.  Branches are in source order. -/
def tokStep (s : List Char) (pos : Nat) : Option Token × Option String × Nat :=
  if isSpaceC (charAt s pos) then (none, none, pos + 1)
  else if charAt s pos = '&' ∧ pos + 1 < s.length ∧ charAt s (pos + 1) = '&' then
    (some ⟨.AND, some "&&"⟩, none, pos + 2)
  else if charAt s pos = '|' ∧ pos + 1 < s.length ∧ charAt s (pos + 1) = '|' then
    (some ⟨.OR, some "||"⟩, none, pos + 2)
  else if charAt s pos = '/' ∧ pos + 1 < s.length ∧ charAt s (pos + 1) = '/' then
    (none, none, scanWhile s (fun ch => ch != '\n') pos)
  else if charAt s pos = '/' ∧ pos + 1 < s.length ∧ charAt s (pos + 1) = '*' then
    if blockScan s (pos + 2) < s.length then (none, none, blockScan s (pos + 2) + 2)
    else (none, some unterminatedCommentWarning, blockScan s (pos + 2) + 1)
  else if isAlphaC (charAt s pos) = true ∨ charAt s pos = '_' then
    (some ⟨keywordLookup (strSlice s pos (scanWhile s (fun ch => isAlnumC ch || ch == '_') pos)),
           some (strSlice s pos (scanWhile s (fun ch => isAlnumC ch || ch == '_') pos))⟩,
     none, scanWhile s (fun ch => isAlnumC ch || ch == '_') pos)
  else if isDigitC (charAt s pos) then
    if scanWhile s isDigitC pos < s.length ∧
        (isAlphaC (charAt s (scanWhile s isDigitC pos)) = true ∨
         charAt s (scanWhile s isDigitC pos) = '_') then
      (some ⟨.IDENTIFIER,
             some (strSlice s pos
               (scanWhile s (fun ch => isAlnumC ch || ch == '_') (scanWhile s isDigitC pos)))⟩,
       none, scanWhile s (fun ch => isAlnumC ch || ch == '_') (scanWhile s isDigitC pos))
    else (some ⟨.INT_LITERAL, some (strSlice s pos (scanWhile s isDigitC pos))⟩,
          none, scanWhile s isDigitC pos)
  else if charAt s pos = '(' then (some ⟨.LPARENTHESIS, some "("⟩, none, pos + 1)
  else if charAt s pos = ')' then (some ⟨.RPARENTHESIS, some ")"⟩, none, pos + 1)
  else if charAt s pos = '=' ∧ pos + 1 < s.length ∧ charAt s (pos + 1) = '=' then
    (some ⟨.EGAL, some "=="⟩, none, pos + 2)
  else if charAt s pos = '!' ∧ pos + 1 < s.length ∧ charAt s (pos + 1) = '=' then
    (some ⟨.NEGAL, some "!="⟩, none, pos + 2)
  else if charAt s pos = '>' ∧ pos + 1 < s.length ∧ charAt s (pos + 1) = '=' then
    (some ⟨.GREAT_EQUAL, some ">="⟩, none, pos + 2)
  else if charAt s pos = '<' ∧ pos + 1 < s.length ∧ charAt s (pos + 1) = '=' then
    (some ⟨.LESS_EQUAL, some "<="⟩, none, pos + 2)
  else if charAt s pos = '>' then (some ⟨.GREAT, some ">"⟩, none, pos + 1)
  else if charAt s pos = '<' then (some ⟨.LESS, some "<"⟩, none, pos + 1)
  else if charAt s pos = '=' then (some ⟨.EQUAL, some "="⟩, none, pos + 1)
  else if charAt s pos = '-' then (some ⟨.MINUS, some "-"⟩, none, pos + 1)
  else if charAt s pos = '+' then (some ⟨.PLUS, some "+"⟩, none, pos + 1)
  else if charAt s pos = '/' then (some ⟨.DIVIDE, some "/"⟩, none, pos + 1)
  else if charAt s pos = '%' then (some ⟨.MODULO, some "%"⟩, none, pos + 1)
  else if charAt s pos = '*' then (some ⟨.STAR, some "*"⟩, none, pos + 1)
  else if charAt s pos = '\x7b' then (some ⟨.LBRACE, some "\x7b"⟩, none, pos + 1)
  else if charAt s pos = '\x7d' then (some ⟨.RBRACE, some "\x7d"⟩, none, pos + 1)
  else if charAt s pos = '[' then (some ⟨.LBRACKET, some "["⟩, none, pos + 1)
  else if charAt s pos = ']' then (some ⟨.RBRACKET, some "]"⟩, none, pos + 1)
  else if charAt s pos = ';' then (some ⟨.SEMICOLON, some ";"⟩, none, pos + 1)
  else if charAt s pos = ',' then (some ⟨.COMMA, some ","⟩, none, pos + 1)
  else (some ⟨.UNKNOWN, some (String.mk [charAt s pos])⟩, none, pos + 1)

/-- The main `tokenize` while-loop, fuelled: one fuel unit per iteration.
`none` means the fuel ran out before the loop finished. -/
def tokenizeLoop : Nat → List Char → Nat → Option (List Token × List String)
  | 0, _, _ => none
  | fuel + 1, s, pos =>
    if pos < s.length then
      match tokStep s pos with
      | (t?, w?, pos') =>
        match tokenizeLoop fuel s pos' with
        | none => none
        | some (ts, ws) => some (t?.toList ++ ts, w?.toList ++ ws)
    else some ([], [])

/-- `Tokenizer::tokenize`, with the fuel bound `length + 1` that the
termination theorem shows is always sufficient. -/
def tokenize (s : List Char) : Option (List Token × List String) :=
  tokenizeLoop (s.length + 1) s 0

/-! ## AST (Parser.hpp, final version)

The C++ AST is a class hierarchy with `shared_ptr` children; the parser
never stores a null child, so the embedding uses ordinary constructor
arguments.  `List`-valued children (`ArrayExpr::elements`,
`BlockStmt::statements`) become the mutually inductive list types below so
that structural recursion and induction are available.  An `IfStmt` with
`elseBranch == nullptr` is `ifS`; one with a non-null else is `ifElseS`. -/

/-- `enum class BinaryOpType` of the source. -/
inductive BinaryOpType where
  | ADD | MUL | SUB | DIV | MOD | EQUAL | GREAT | LESS
  | GREAT_EQUAL | LESS_EQUAL | AND | OR | NOT_EQUAL
  deriving DecidableEq, Repr

mutual
/-- Expressions (`IntExpr`, `VarExpr`, `BinaryExpr`, `ArrayExpr`,
`ArrayAccessExpr`, `LengthExpr`). -/
inductive Expr where
  | intExpr (token : Token)
  | varExpr (token : Token)
  | binaryExpr (gauche : Expr) (op : BinaryOpType) (droite : Expr)
  | arrayExpr (elements : ExprList)
  | arrayAccessExpr (array : Expr) (index : Expr)
  | lengthExpr (array : Expr)
  deriving DecidableEq, Repr

/-- `std::vector<std::shared_ptr<Expr>>`. -/
inductive ExprList where
  | nil
  | cons (head : Expr) (tail : ExprList)
  deriving DecidableEq, Repr
end

mutual
/-- Statements (`ExitStmt`, `LetStmt`, `BlockStmt`, `IfStmt`, `WhileStmt`,
`AssignStmt`, `PrintStmt`, `ArrayAssignStmt`). -/
inductive Stmt where
  | exitS (expr : Expr)
  | letS (var : Token) (expr : Expr)
  | block (statements : StmtList)
  | ifS (condition : Expr) (thenBranch : StmtList)
  | ifElseS (condition : Expr) (thenBranch : StmtList) (elseBranch : StmtList)
  | whileS (condition : Expr) (body : StmtList)
  | assign (var : Token) (expr : Expr)
  | print (expr : Expr)
  | arrayAssign (array : Expr) (index : Expr) (value : Expr)
  deriving DecidableEq, Repr

/-- `std::vector<std::shared_ptr<Stmt>>`. -/
inductive StmtList where
  | nil
  | cons (head : Stmt) (tail : StmtList)
  deriving DecidableEq, Repr
end

/-- `struct Program`: an ordered list of statements. -/
structure Program where
  statements : StmtList
  deriving DecidableEq, Repr

def ExprList.length : ExprList → Nat
  | .nil => 0
  | .cons _ t => 1 + t.length

def ExprList.toList : ExprList → List Expr
  | .nil => []
  | .cons h t => h :: t.toList

/-! ## Code generator (Generator.hpp, final version)

A scope is an association list standing for one `unordered_map`; the scope
stack `symbolTables` is kept innermost-first (the head of the list is the
C++ vector's `back()`).  The generator state carries the scope stack, the
`stackOffset` counter (a mathematical integer — the C++ `int` never
overflows on realistic programs), the three `static int` label counters
and the output lines.  `minOff` is pure instrumentation: it records the
minimum value `stackOffset` ever takes, so that "never drops below"
properties can be stated; it does not influence any emitted line. -/

/-- One `unordered_map<std::string, int>`: name to frame-pointer offset. -/
def Scope := List (String × Int)

/-- `unordered_map::find` within one scope. -/
def scopeFind (sc : Scope) (name : String) : Option Int :=
  match sc with
  | [] => none
  | (n, off) :: rest => if n = name then some off else scopeFind rest name

/-- Generator state: scope stack (innermost first), `stackOffset`, the
three `static` label counters, the output, and the `minOff`
instrumentation. -/
structure GenSt where
  tables : List Scope
  stackOffset : Int
  minOff : Int
  ifC : Nat
  whileC : Nat
  printC : Nat
  out : List String

/-- Append emitted lines to the output. -/
def emit (st : GenSt) (lines : List String) : GenSt :=
  { st with out := st.out ++ lines }

/-- Assign `stackOffset`, keeping the running minimum up to date. -/
def setOffset (st : GenSt) (v : Int) : GenSt :=
  { st with stackOffset := v, minOff := min st.minOff v }

/-- `Generator::findVariableOffset`: walk the scope stack innermost to
outermost and return the first binding of `name`. -/
def findVariableOffset (name : String) (tables : List Scope) : Option Int :=
  match tables with
  | [] => none
  | sc :: rest =>
    match scopeFind sc name with
    | some off => some off
    | none => findVariableOffset name rest

/-- The instruction lines of one binary-operator case of
`generateExpressionCode` (the `switch (binExpr->op)`). -/
def binOpLines (op : BinaryOpType) : List String :=
  match op with
  | .ADD => ["    add rax, rbx"]
  | .MUL => ["    imul rax, rbx"]
  | .SUB => ["    sub rax, rbx"]
  | .DIV => ["    mov rcx, rbx", "    xor rdx, rdx", "    div rcx"]
  | .MOD => ["    mov rcx, rbx", "    xor rdx, rdx", "    div rcx", "    mov rax, rdx"]
  | .EQUAL => ["    cmp rax, rbx", "    sete al", "    movzx rax, al"]
  | .GREAT => ["    cmp rax, rbx", "    setg al", "    movzx rax, al"]
  | .LESS => ["    cmp rax, rbx", "    setl al", "    movzx rax, al"]
  | .GREAT_EQUAL => ["    cmp rax, rbx", "    setge al", "    movzx rax, al"]
  | .LESS_EQUAL => ["    cmp rax, rbx", "    setle al", "    movzx rax, al"]
  | .AND => ["    and rax, rbx"]
  | .OR => ["    or rax, rbx"]
  | .NOT_EQUAL => ["    cmp rax, rbx", "    setne al", "    movzx rax, al"]

mutual
/-- `Generator::generateExpressionCode`: the lines emitted for one
expression (the function is `const`: it only reads the scope stack). -/
def genExpr (tables : List Scope) (e : Expr) : List String :=
  match e with
  | .intExpr tok =>
    match tok.value with
    | some v => ["    mov rax, " ++ v]
    | none => ["    mov rax, 0"]
  | .varExpr tok =>
    match tok.value with
    | some name =>
      match findVariableOffset name tables with
      | some off => ["    mov rax, [rbp-" ++ toString off ++ "]"]
      | none => ["    ; Variable non définie: " ++ name, "    mov rax, 0"]
    | none => []
  | .binaryExpr gauche op droite =>
    genExpr tables droite ++ ["    push rax"] ++ genExpr tables gauche
      ++ ["    pop rbx"] ++ binOpLines op
  | .arrayExpr elements =>
    ["    mov rax, 9",
     "    mov rdi, 0",
     "    mov rsi, " ++ toString ((elements.length + 1) * 8),
     "    mov rdx, 3",
     "    mov r10, 34",
     "    mov r8, -1",
     "    mov r9, 0",
     "    syscall",
     "    push rax",
     "    mov rbx, [rsp]",
     "    mov qword [rbx], " ++ toString elements.length]
      ++ genArrayInit tables elements 0
      ++ ["    pop rax"]
  | .arrayAccessExpr array index =>
    genExpr tables array ++ ["    push rax"] ++ genExpr tables index
      ++ ["    add rax, 1", "    imul rax, 8", "    pop rbx", "    add rbx, rax",
          "    mov rax, [rbx]"]
  | .lengthExpr array =>
    genExpr tables array ++ ["    mov rax, [rax]"]

/-- The `for (i = 0; i < size; i++)` element-initialisation loop of the
`ARRAY` case; `i` is the element index, the store goes to offset
`(i+1)*8`. -/
def genArrayInit (tables : List Scope) (es : ExprList) (i : Nat) : List String :=
  match es with
  | .nil => []
  | .cons e rest =>
    ["    mov rbx, [rsp]", "    push rbx"]
      ++ genExpr tables e
      ++ ["    pop rbx", "    mov [rbx + " ++ toString ((i + 1) * 8) ++ "], rax"]
      ++ genArrayInit tables rest (i + 1)
end

/-- `Generator::generateExitCode`. -/
def genExitCode (st : GenSt) (e : Expr) : GenSt :=
  emit st (genExpr st.tables e ++ ["    mov rdi, rax", "    mov rax, 60", "    syscall"])

/-- `Generator::generateLetCode`.  The innermost scope is the head of the
scope stack (`symbolTables.back()`); on an empty stack (impossible from
`generateAssembly`, which starts with a global scope) nothing is bound. -/
def genLetCode (st : GenSt) (var : Token) (e : Expr) : GenSt :=
  match var.value with
  | none => st
  | some name =>
    let exprLines := genExpr st.tables e
    match st.tables with
    | [] => emit st exprLines
    | cur :: rest =>
      match scopeFind cur name with
      | some off =>
        emit st (exprLines ++ ["    mov [rbp-" ++ toString off ++ "], rax"])
      | none =>
        let newOff := st.stackOffset + 8
        let st' := setOffset { st with tables := ((name, newOff) :: cur) :: rest } newOff
        emit st' (exprLines ++ ["    sub rsp, 8",
                                "    mov [rbp-" ++ toString newOff ++ "], rax"])

/-- `Generator::generateAssignCode`.  The source dereferences
`assignStmt->var.value` unchecked; parser-built tokens always carry a
value, and `getD ""` stands for that dereference.  An unresolved name
prints to stderr and emits nothing. -/
def genAssignCode (st : GenSt) (var : Token) (e : Expr) : GenSt :=
  match findVariableOffset (var.value.getD "") st.tables with
  | none => st
  | some off =>
    emit st (genExpr st.tables e ++ ["    mov [rbp-" ++ toString off ++ "], rax"])

/-- `Generator::generateArrayAssignCode`. -/
def genArrayAssignCode (st : GenSt) (array index value : Expr) : GenSt :=
  emit st (genExpr st.tables value ++ ["    push rax"]
    ++ genExpr st.tables array ++ ["    push rax"]
    ++ genExpr st.tables index
    ++ ["    add rax, 1", "    imul rax, 8", "    pop rbx", "    add rbx, rax",
        "    pop rax", "    mov [rbx], rax"])

/-- `Generator::generatePrintCode` (labels use the `static` print
counter). -/
def genPrintCode (st : GenSt) (e : Expr) : GenSt :=
  let positiveLabel := ".print_positive_" ++ toString st.printC
  let convertLabel := ".convert_loop_" ++ toString st.printC
  let st' := { st with printC := st.printC + 1 }
  emit st' (genExpr st'.tables e ++
    ["    ; Convertir et afficher l\x27entier",
     "    sub rsp, 32",
     "    mov rcx, rsp",
     "    add rcx, 31",
     "    mov byte [rcx], 0x0A",
     "    dec rcx",
     "    mov r10, rax",
     "    test r10, r10",
     "    jns " ++ positiveLabel,
     "    neg r10",
     "    mov byte [rcx], 0x2D",
     "    dec rcx",
     positiveLabel ++ ":",
     "    mov rax, r10",
     "    mov r9, 10",
     convertLabel ++ ":",
     "    xor rdx, rdx",
     "    div r9",
     "    add dl, \x270\x27",
     "    mov [rcx], dl",
     "    dec rcx",
     "    test rax, rax",
     "    jnz " ++ convertLabel,
     "    lea rsi, [rcx+1]",
     "    mov rdx, rsp",
     "    add rdx, 31",
     "    sub rdx, rcx",
     "    mov rax, 1",
     "    mov rdi, 1",
     "    syscall",
     "    add rsp, 32"])

mutual
/-- The `switch (stmt->getType())` dispatch inside
`Generator::generateBlockCode` (which, unlike the top-level dispatch in
`generateAssembly`, has an `ASSIGN` case and routes `ARRAY_ASSIGN` to
`generateArrayAssignCode`). -/
def genStmtBlock (st : GenSt) (s : Stmt) : GenSt :=
  match s with
  | .exitS e => genExitCode st e
  | .letS v e => genLetCode st v e
  | .block b => genBlockCode st b
  | .ifS c t => genIfCode st c t none
  | .ifElseS c t e => genIfCode st c t (some e)
  | .whileS c b => genWhileCode st c b
  | .assign v e => genAssignCode st v e
  | .print e => genPrintCode st e
  | .arrayAssign a i v => genArrayAssignCode st a i v
termination_by 3 * sizeOf s
decreasing_by
  all_goals simp_wf
  all_goals try omega
  all_goals
    first
    | (rename_i c t e; have h1 : 0 < sizeOf c := (by cases c <;> simp_arith); omega)
    | (rename_i c t; have h1 : 0 < sizeOf c := (by cases c <;> simp_arith); omega)

/-- The statement loop of `generateBlockCode`. -/
def genStmts (st : GenSt) (l : StmtList) : GenSt :=
  match l with
  | .nil => st
  | .cons s rest => genStmts (genStmtBlock st s) rest
termination_by 3 * sizeOf l
decreasing_by
  all_goals simp_wf
  all_goals omega

/-- `Generator::generateBlockCode`: begin comment, push a scope, lower
the statements, roll `rsp`/`stackOffset` back, pop the scope, end
comment. -/
def genBlockCode (st : GenSt) (b : StmtList) : GenSt :=
  let st1 := emit st ["    ; Début de bloc"]
  let st2 := { st1 with tables := ([] : Scope) :: st1.tables }
  let initial := st2.stackOffset
  let st3 := genStmts st2 b
  let st4 :=
    if initial < st3.stackOffset then
      setOffset (emit st3 ["    add rsp, " ++ toString (st3.stackOffset - initial)]) initial
    else st3
  let st5 := { st4 with tables := st4.tables.tail }
  emit st5 ["    ; Fin de bloc"]
termination_by 3 * sizeOf b + 1
decreasing_by
  all_goals simp_wf

/-- `Generator::generateIfCode`.  Note the source's jump after the
then-block targets `elseLabel`, not `endLabel`. -/
def genIfCode (st : GenSt) (c : Expr) (t : StmtList) (els : Option StmtList) : GenSt :=
  let elseLabel := ".if_else_" ++ toString st.ifC
  let endLabel := ".if_end_" ++ toString st.ifC
  let st0 := { st with ifC := st.ifC + 1 }
  let st1 := emit st0 (["    ; Début du if"] ++ genExpr st0.tables c ++ ["    cmp rax, 0"])
  let st2 := emit st1 [match els with
    | some _ => "    je " ++ elseLabel
    | none => "    je " ++ endLabel]
  let st3 := genBlockCode st2 t
  let st4 :=
    match els with
    | some eb =>
      let sA := emit st3 ["    jmp " ++ elseLabel]
      let sB := emit sA [elseLabel ++ ":"]
      genBlockCode sB eb
    | none => st3
  emit st4 [endLabel ++ ":", "    ; Fin du if"]
termination_by 3 * (sizeOf t + sizeOf els)
decreasing_by
  all_goals simp_wf
  all_goals try omega
  all_goals (have h1 : 0 < sizeOf els := (by cases els <;> simp_arith); omega)

/-- `Generator::generateWhileCode`. -/
def genWhileCode (st : GenSt) (c : Expr) (b : StmtList) : GenSt :=
  let startLabel := ".while_start_" ++ toString st.whileC
  let endLabel := ".while_end_" ++ toString st.whileC
  let st0 := { st with whileC := st.whileC + 1 }
  let st1 := emit st0 ([startLabel ++ ":"] ++ genExpr st0.tables c
    ++ ["    cmp rax, 0", "    je " ++ endLabel])
  let st2 := genBlockCode st1 b
  emit st2 ["    jmp " ++ startLabel, endLabel ++ ":"]
termination_by 3 * sizeOf b + 2
decreasing_by
  all_goals simp_wf
end

/-- The `switch (stmt->getType())` of `Generator::generateAssembly`
(top level).  It has no `ASSIGN` case — an `ASSIGN` statement falls into
`default:` and emits only the unsupported-instruction comment — and its
`ARRAY_ASSIGN` case calls `generateAssignCode` through a
`dynamic_cast<AssignStmt*>` that yields null for an `ArrayAssignStmt`, so
`generateAssignCode` returns immediately and nothing is emitted.  The
Boolean returned alongside records whether `hasExitStmt` was set. -/
def genStmtTop (st : GenSt) (s : Stmt) : GenSt × Bool :=
  match s with
  | .exitS e => (genExitCode st e, true)
  | .letS v e => (genLetCode st v e, false)
  | .block b => (genBlockCode st b, false)
  | .ifS c t => (genIfCode st c t none, false)
  | .ifElseS c t e => (genIfCode st c t (some e), false)
  | .whileS c b => (genWhileCode st c b, false)
  | .print e => (genPrintCode st e, false)
  | .arrayAssign _ _ _ => (st, false)
  | .assign _ _ => (emit st ["    ; Instruction non supportée"], false)

/-- The statement loop of `generateAssembly`, threading `hasExitStmt`. -/
def genTopStmts (st : GenSt) (hasExit : Bool) (l : StmtList) : GenSt × Bool :=
  match l with
  | .nil => (st, hasExit)
  | .cons s rest =>
    let (st', isExit) := genStmtTop st s
    genTopStmts st' (hasExit || isExit) rest

/-- The initial generator state: one global scope, zero counters, the
prologue already emitted. -/
def initialGenSt : GenSt :=
  { tables := [([] : Scope)], stackOffset := 0, minOff := 0,
    ifC := 0, whileC := 0, printC := 0,
    out := ["global _start", "section .text", "_start:",
            "    push rbp", "    mov rbp, rsp"] }

/-- `Generator::generateAssembly`: prologue, the top-level statement
loop, and the default `exit(0)` epilogue when no top-level `exit` was
seen. -/
def generateAssembly (p : Program) : GenSt :=
  let (st, hasExit) := genTopStmts initialGenSt false p.statements
  if hasExit then st
  else emit st ["    mov rax, 60", "    mov rdi, 0", "    syscall"]

/-! ## Parser (Parser.hpp, final version)

Every parsing function takes the token vector, a fuel argument (one unit
per function entry or loop iteration; the returned `Option` is `none`
when fuel runs out, which the backtracking claims treat like any other
parse failure) and the cursor `m_position`, and returns the parse result,
the updated cursor, and the out-of-bounds instrumentation flag: `true`
iff some read of the token vector happened at an index `≥ length`.  Every
token access in the source is guarded by a `pos < size` test except the
loop-continuation test of `parseAddition`, whose condition
`m_position < m_tokens.size() && tok == PLUS || tok == MINUS`
parses as `(pos < size && tok == PLUS) || tok == MINUS` and therefore
evaluates `m_tokens[m_position]` even when `m_position ≥ size`.  That
out-of-bounds read (undefined behaviour) is modelled as yielding the
default `UNKNOWN` token — which is not `MINUS`, so the loop exits — and
setting the flag. -/

/-- The token at `pos`; out of bounds gives a default `UNKNOWN` token. -/
def tokAt (toks : List Token) (pos : Nat) : Token :=
  toks.getD pos ⟨.UNKNOWN, none⟩

/-- The kind of the token at `pos`. -/
def tokTypeAt (toks : List Token) (pos : Nat) : TokenType := (tokAt toks pos).type

/-- `ExprList.push_back`. -/
def ExprList.snoc : ExprList → Expr → ExprList
  | .nil, e => .cons e .nil
  | .cons h t, e => .cons h (t.snoc e)

/-- The comparison-operator mapping of `parseComparison`
(`if/else if` chain on `operatorType`). -/
def compOpOf (t : TokenType) : Option BinaryOpType :=
  if t = .EGAL then some .EQUAL
  else if t = .GREAT then some .GREAT
  else if t = .LESS then some .LESS
  else if t = .GREAT_EQUAL then some .GREAT_EQUAL
  else if t = .LESS_EQUAL then some .LESS_EQUAL
  else if t = .NEGAL then some .NOT_EQUAL
  else none

mutual
/-- `Parser::parseExpression`. -/
def parseExpression (toks : List Token) : Nat → Nat → Option Expr × Nat × Bool
  | 0, pos => (none, pos, false)
  | fuel + 1, pos => parseLogicalConOR toks fuel pos
  termination_by structural fuel => fuel

/-- `Parser::parseLogicalConOR`. -/
def parseLogicalConOR (toks : List Token) : Nat → Nat → Option Expr × Nat × Bool
  | 0, pos => (none, pos, false)
  | fuel + 1, pos =>
    match parseLogicalConAND toks fuel pos with
    | (none, p, o) => (none, p, o)
    | (some left, p, o) => parseORLoop toks fuel left p o
  termination_by structural fuel => fuel

/-- The `while` loop of `parseLogicalConOR` (condition fully guarded). -/
def parseORLoop (toks : List Token) : Nat → Expr → Nat → Bool → Option Expr × Nat × Bool
  | 0, _, pos, oob => (none, pos, oob)
  | fuel + 1, left, pos, oob =>
    if pos < toks.length ∧ tokTypeAt toks pos = .OR then
      match parseLogicalConAND toks fuel (pos + 1) with
      | (none, p, o2) => (none, p, oob || o2)
      | (some right, p, o2) =>
        parseORLoop toks fuel (.binaryExpr left .OR right) p (oob || o2)
    else (some left, pos, oob)
  termination_by structural fuel => fuel

/-- `Parser::parseLogicalConAND`. -/
def parseLogicalConAND (toks : List Token) : Nat → Nat → Option Expr × Nat × Bool
  | 0, pos => (none, pos, false)
  | fuel + 1, pos =>
    match parseComparison toks fuel pos with
    | (none, p, o) => (none, p, o)
    | (some left, p, o) => parseANDLoop toks fuel left p o
  termination_by structural fuel => fuel

/-- The `while` loop of `parseLogicalConAND` (condition fully guarded). -/
def parseANDLoop (toks : List Token) : Nat → Expr → Nat → Bool → Option Expr × Nat × Bool
  | 0, _, pos, oob => (none, pos, oob)
  | fuel + 1, left, pos, oob =>
    if pos < toks.length ∧ tokTypeAt toks pos = .AND then
      match parseComparison toks fuel (pos + 1) with
      | (none, p, o2) => (none, p, oob || o2)
      | (some right, p, o2) =>
        parseANDLoop toks fuel (.binaryExpr left .AND right) p (oob || o2)
    else (some left, pos, oob)
  termination_by structural fuel => fuel

/-- `Parser::parseComparison`. -/
def parseComparison (toks : List Token) : Nat → Nat → Option Expr × Nat × Bool
  | 0, pos => (none, pos, false)
  | fuel + 1, pos =>
    match parseAddition toks fuel pos with
    | (none, p, o) => (none, p, o)
    | (some left, p, o) => parseCompLoop toks fuel left p o
  termination_by structural fuel => fuel

/-- The `while` loop of `parseComparison` (condition fully guarded; the
unreachable `else` of the operator chain aborts before parsing the right
operand, with the operator token already consumed). -/
def parseCompLoop (toks : List Token) : Nat → Expr → Nat → Bool → Option Expr × Nat × Bool
  | 0, _, pos, oob => (none, pos, oob)
  | fuel + 1, left, pos, oob =>
    if pos < toks.length ∧
        (tokTypeAt toks pos = .EGAL ∨ tokTypeAt toks pos = .GREAT ∨
         tokTypeAt toks pos = .LESS ∨ tokTypeAt toks pos = .GREAT_EQUAL ∨
         tokTypeAt toks pos = .LESS_EQUAL ∨ tokTypeAt toks pos = .NEGAL) then
      match compOpOf (tokTypeAt toks pos) with
      | none => (none, pos + 1, oob)
      | some op =>
        match parseAddition toks fuel (pos + 1) with
        | (none, p, o2) => (none, p, oob || o2)
        | (some right, p, o2) =>
          parseCompLoop toks fuel (.binaryExpr left op right) p (oob || o2)
    else (some left, pos, oob)
  termination_by structural fuel => fuel

/-- `Parser::parseAddition`. -/
def parseAddition (toks : List Token) : Nat → Nat → Option Expr × Nat × Bool
  | 0, pos => (none, pos, false)
  | fuel + 1, pos =>
    match parseMultiplication toks fuel pos with
    | (none, p, o) => (none, p, o)
    | (some left, p, o) => parseAddLoop toks fuel left p o
  termination_by structural fuel => fuel

/-- The `while` loop of `parseAddition`.  Its C++ condition is
`m_position < m_tokens.size() && tok == PLUS || tok == MINUS`, i.e.
`(pos < size && tok == PLUS) || tok == MINUS`: when `pos ≥ size` the
first disjunct is false and the second still reads `m_tokens[pos]` —
out of bounds.  The modelled read yields `UNKNOWN ≠ MINUS`, so the loop
exits, and the instrumentation flag is set. -/
def parseAddLoop (toks : List Token) : Nat → Expr → Nat → Bool → Option Expr × Nat × Bool
  | 0, _, pos, oob => (none, pos, oob)
  | fuel + 1, left, pos, oob =>
    if pos < toks.length then
      if tokTypeAt toks pos = .PLUS ∨ tokTypeAt toks pos = .MINUS then
        match parseMultiplication toks fuel (pos + 1) with
        | (none, p, o2) => (none, p, oob || o2)
        | (some right, p, o2) =>
          parseAddLoop toks fuel
            (if tokTypeAt toks pos = .MINUS then .binaryExpr left .SUB right
             else if tokTypeAt toks pos = .PLUS then .binaryExpr left .ADD right
             else left)
            p (oob || o2)
      else (some left, pos, oob)
    else
      -- out-of-bounds read of `m_tokens[pos]` by the second disjunct;
      -- the default token is UNKNOWN, never MINUS, so the loop exits
      (some left, pos, true)
  termination_by structural fuel => fuel

/-- `Parser::parseMultiplication` (its condition is fully parenthesised,
`pos < size && (STAR || DIVIDE || STAR || MODULO)`, duplicate `STAR`
included as in the source). -/
def parseMultiplication (toks : List Token) : Nat → Nat → Option Expr × Nat × Bool
  | 0, pos => (none, pos, false)
  | fuel + 1, pos =>
    match parseSemiParenth toks fuel pos with
    | (none, p, o) => (none, p, o)
    | (some left, p, o) => parseMulLoop toks fuel left p o
  termination_by structural fuel => fuel

/-- The `while` loop of `parseMultiplication`. -/
def parseMulLoop (toks : List Token) : Nat → Expr → Nat → Bool → Option Expr × Nat × Bool
  | 0, _, pos, oob => (none, pos, oob)
  | fuel + 1, left, pos, oob =>
    if pos < toks.length ∧
        (tokTypeAt toks pos = .STAR ∨ tokTypeAt toks pos = .DIVIDE ∨
         tokTypeAt toks pos = .STAR ∨ tokTypeAt toks pos = .MODULO) then
      match parseSemiParenth toks fuel (pos + 1) with
      | (none, p, o2) => (none, p, oob || o2)
      | (some right, p, o2) =>
        parseMulLoop toks fuel
          (if tokTypeAt toks pos = .DIVIDE then .binaryExpr left .DIV right
           else if tokTypeAt toks pos = .MODULO then .binaryExpr left .MOD right
           else if tokTypeAt toks pos = .STAR then .binaryExpr left .MUL right
           else left)
          p (oob || o2)
    else (some left, pos, oob)
  termination_by structural fuel => fuel

/-- `Parser::parseSemiParenth`: primary expressions. -/
def parseSemiParenth (toks : List Token) : Nat → Nat → Option Expr × Nat × Bool
  | 0, pos => (none, pos, false)
  | fuel + 1, pos =>
    if pos < toks.length then
      if tokTypeAt toks pos = .LBRACKET then parseArray toks fuel pos
      else if tokTypeAt toks pos = .INT_LITERAL then
        (some (.intExpr (tokAt toks pos)), pos + 1, false)
      else if tokTypeAt toks pos = .IDENTIFIER then
        if pos + 1 < toks.length ∧ tokTypeAt toks (pos + 1) = .LBRACKET then
          match parseExpression toks fuel (pos + 2) with
          | (none, p, o) => (none, p, o)
          | (some idx, p, o) =>
            if p < toks.length ∧ tokTypeAt toks p = .RBRACKET then
              (some (.arrayAccessExpr (.varExpr (tokAt toks pos)) idx), p + 1, o)
            else (none, p, o)
        else (some (.varExpr (tokAt toks pos)), pos + 1, false)
      else if tokTypeAt toks pos = .LENGTH then
        if pos + 1 < toks.length ∧ tokTypeAt toks (pos + 1) = .LPARENTHESIS then
          match parseExpression toks fuel (pos + 2) with
          | (none, p, o) => (none, p, o)
          | (some arr, p, o) =>
            if p < toks.length ∧ tokTypeAt toks p = .RPARENTHESIS then
              (some (.lengthExpr arr), p + 1, o)
            else (none, p, o)
        else (none, pos + 1, false)
      else if tokTypeAt toks pos = .LPARENTHESIS then
        match parseExpression toks fuel (pos + 1) with
        | (none, p, o) => (none, p, o)
        | (some e, p, o) =>
          if p < toks.length ∧ tokTypeAt toks p = .RPARENTHESIS then (some e, p + 1, o)
          else (none, p, o)
      else (none, pos, false)
    else (none, pos, false)
  termination_by structural fuel => fuel

/-- `Parser::parseArray`. -/
def parseArray (toks : List Token) : Nat → Nat → Option Expr × Nat × Bool
  | 0, pos => (none, pos, false)
  | fuel + 1, pos =>
    if pos < toks.length ∧ tokTypeAt toks pos = .LBRACKET then
      if pos + 1 < toks.length ∧ tokTypeAt toks (pos + 1) = .RBRACKET then
        (some (.arrayExpr .nil), pos + 2, false)
      else parseArrayLoop toks fuel .nil (pos + 1) false
    else (none, pos, false)
  termination_by structural fuel => fuel

/-- The `while (true)` element loop of `parseArray`. -/
def parseArrayLoop (toks : List Token) :
    Nat → ExprList → Nat → Bool → Option Expr × Nat × Bool
  | 0, _, pos, oob => (none, pos, oob)
  | fuel + 1, acc, pos, oob =>
    match parseExpression toks fuel pos with
    | (none, p, o2) => (none, p, oob || o2)
    | (some e, p, o2) =>
      if toks.length ≤ p then (none, p, oob || o2)
      else if tokTypeAt toks p = .RBRACKET then
        (some (.arrayExpr (acc.snoc e)), p + 1, oob || o2)
      else if tokTypeAt toks p = .COMMA then
        parseArrayLoop toks fuel (acc.snoc e) (p + 1) (oob || o2)
      else (none, p, oob || o2)
  termination_by structural fuel => fuel
end

/-- `Parser::parseArrayAssignStmt`: saves `startPos` on entry and, on
every failure path except the final missing-semicolon check, restores
`m_position` to it. -/
def parseArrayAssignStmt (toks : List Token) : Nat → Nat → Option Stmt × Nat × Bool
  | 0, pos => (none, pos, false)
  | fuel + 1, pos =>
    if pos < toks.length ∧ tokTypeAt toks pos = .IDENTIFIER then
      if pos + 1 < toks.length ∧ tokTypeAt toks (pos + 1) = .LBRACKET then
        match parseExpression toks fuel (pos + 2) with
        | (none, _, o) => (none, pos, o)
        | (some idx, p, o) =>
          if p < toks.length ∧ tokTypeAt toks p = .RBRACKET then
            if p + 1 < toks.length ∧ tokTypeAt toks (p + 1) = .EQUAL then
              match parseExpression toks fuel (p + 2) with
              | (none, _, o2) => (none, pos, o || o2)
              | (some value, q, o2) =>
                if q < toks.length ∧ tokTypeAt toks q = .SEMICOLON then
                  (some (.arrayAssign (.varExpr (tokAt toks pos)) idx value),
                   q + 1, o || o2)
                else (none, q, o || o2)
            else (none, pos, o)
          else (none, pos, o)
      else (none, pos, false)
    else (none, pos, false)

/-- The cursor position just after the `IDENT [ expr ] = expr` prefix of
`parseArrayAssignStmt` when that prefix parses successfully — the
position at which the final semicolon check happens.  Mirrors the first
six steps of `parseArrayAssignStmt`. -/
def arrayAssignPrefixEnd (toks : List Token) : Nat → Nat → Option Nat
  | 0, _ => none
  | fuel + 1, pos =>
    if pos < toks.length ∧ tokTypeAt toks pos = .IDENTIFIER then
      if pos + 1 < toks.length ∧ tokTypeAt toks (pos + 1) = .LBRACKET then
        match parseExpression toks fuel (pos + 2) with
        | (none, _, _) => none
        | (some _, p, _) =>
          if p < toks.length ∧ tokTypeAt toks p = .RBRACKET then
            if p + 1 < toks.length ∧ tokTypeAt toks (p + 1) = .EQUAL then
              match parseExpression toks fuel (p + 2) with
              | (none, _, _) => none
              | (some _, q, _) => some q
            else none
          else none
      else none
    else none

/-! ## Theorems: tokenizer termination (C9) -/

theorem scanWhile_ge (s : List Char) (p : Char → Bool) (pos : Nat) :
    pos ≤ scanWhile s p pos := by
  unfold scanWhile
  split
  · split
    · have := scanWhile_ge s p (pos + 1)
      omega
    · omega
  · omega
termination_by s.length - pos

theorem scanWhile_gt (s : List Char) (p : Char → Bool) (pos : Nat)
    (h : pos < s.length) (hp : p (charAt s pos) = true) :
    pos + 1 ≤ scanWhile s p pos := by
  have h2 := scanWhile_ge s p (pos + 1)
  unfold scanWhile
  simp only [dif_pos h, hp, if_pos]
  omega

theorem blockScan_ge (s : List Char) (pos : Nat) : pos ≤ blockScan s pos := by
  unfold blockScan
  split
  · split
    · omega
    · have := blockScan_ge s (pos + 1)
      omega
  · omega
termination_by s.length - pos

theorem charAt_oob (s : List Char) (pos : Nat) (h : s.length ≤ pos) :
    charAt s pos = Char.ofNat 0 := by
  simp [charAt, List.getD, List.getElem?_eq_none h]

theorem lt_of_alpha_or_underscore (s : List Char) (pos : Nat)
    (h : isAlphaC (charAt s pos) = true ∨ charAt s pos = '_') : pos < s.length := by
  by_contra hc
  push_neg at hc
  rw [charAt_oob s pos hc] at h
  revert h
  decide

theorem lt_of_digit (s : List Char) (pos : Nat)
    (h : isDigitC (charAt s pos) = true) : pos < s.length := by
  by_contra hc
  push_neg at hc
  rw [charAt_oob s pos hc] at h
  revert h
  decide

theorem alnum_pred_of_alpha_or_underscore (c : Char)
    (h : isAlphaC c = true ∨ c = '_') : (isAlnumC c || c == '_') = true := by
  rcases h with h | h
  · simp [isAlnumC, h]
  · simp [h]

set_option maxHeartbeats 1000000 in
/-- Every iteration of the tokenizer loop strictly advances the cursor. -/
theorem tokStep_advance (s : List Char) (pos : Nat) : pos < (tokStep s pos).2.2 := by
  unfold tokStep
  by_cases h1 : isSpaceC (charAt s pos) = true
  · rw [if_pos h1]; show pos < pos + 1; omega
  rw [if_neg h1]
  by_cases h2 : charAt s pos = '&' ∧ pos + 1 < s.length ∧ charAt s (pos + 1) = '&'
  · rw [if_pos h2]; show pos < pos + 2; omega
  rw [if_neg h2]
  by_cases h3 : charAt s pos = '|' ∧ pos + 1 < s.length ∧ charAt s (pos + 1) = '|'
  · rw [if_pos h3]; show pos < pos + 2; omega
  rw [if_neg h3]
  by_cases h4 : charAt s pos = '/' ∧ pos + 1 < s.length ∧ charAt s (pos + 1) = '/'
  · rw [if_pos h4]
    show pos < scanWhile s (fun ch => ch != '\n') pos
    have ha : pos < s.length := by omega
    have hb : (charAt s pos != '\n') = true := by rw [h4.1]; decide
    exact scanWhile_gt s (fun ch => ch != '\n') pos ha hb
  rw [if_neg h4]
  by_cases h5 : charAt s pos = '/' ∧ pos + 1 < s.length ∧ charAt s (pos + 1) = '*'
  · rw [if_pos h5]
    have hb := blockScan_ge s (pos + 2)
    by_cases h5b : blockScan s (pos + 2) < s.length
    · rw [if_pos h5b]; show pos < blockScan s (pos + 2) + 2; omega
    · rw [if_neg h5b]; show pos < blockScan s (pos + 2) + 1; omega
  rw [if_neg h5]
  by_cases h6 : isAlphaC (charAt s pos) = true ∨ charAt s pos = '_'
  · rw [if_pos h6]
    show pos < scanWhile s (fun ch => isAlnumC ch || ch == '_') pos
    exact scanWhile_gt s (fun ch => isAlnumC ch || ch == '_') pos
      (lt_of_alpha_or_underscore s pos h6)
      (alnum_pred_of_alpha_or_underscore (charAt s pos) h6)
  rw [if_neg h6]
  by_cases h7 : isDigitC (charAt s pos) = true
  · rw [if_pos h7]
    have hd := scanWhile_gt s isDigitC pos (lt_of_digit s pos h7) h7
    by_cases h7b : scanWhile s isDigitC pos < s.length ∧
        (isAlphaC (charAt s (scanWhile s isDigitC pos)) = true ∨
         charAt s (scanWhile s isDigitC pos) = '_')
    · rw [if_pos h7b]
      show pos < scanWhile s (fun ch => isAlnumC ch || ch == '_') (scanWhile s isDigitC pos)
      have hc := scanWhile_ge s (fun ch => isAlnumC ch || ch == '_') (scanWhile s isDigitC pos)
      omega
    · rw [if_neg h7b]
      show pos < scanWhile s isDigitC pos
      omega
  rw [if_neg h7]
  by_cases h8 : charAt s pos = '('
  · rw [if_pos h8]; show pos < pos + 1; omega
  rw [if_neg h8]
  by_cases h9 : charAt s pos = ')'
  · rw [if_pos h9]; show pos < pos + 1; omega
  rw [if_neg h9]
  by_cases h10 : charAt s pos = '=' ∧ pos + 1 < s.length ∧ charAt s (pos + 1) = '='
  · rw [if_pos h10]; show pos < pos + 2; omega
  rw [if_neg h10]
  by_cases h11 : charAt s pos = '!' ∧ pos + 1 < s.length ∧ charAt s (pos + 1) = '='
  · rw [if_pos h11]; show pos < pos + 2; omega
  rw [if_neg h11]
  by_cases h12 : charAt s pos = '>' ∧ pos + 1 < s.length ∧ charAt s (pos + 1) = '='
  · rw [if_pos h12]; show pos < pos + 2; omega
  rw [if_neg h12]
  by_cases h13 : charAt s pos = '<' ∧ pos + 1 < s.length ∧ charAt s (pos + 1) = '='
  · rw [if_pos h13]; show pos < pos + 2; omega
  rw [if_neg h13]
  by_cases h14 : charAt s pos = '>'
  · rw [if_pos h14]; show pos < pos + 1; omega
  rw [if_neg h14]
  by_cases h15 : charAt s pos = '<'
  · rw [if_pos h15]; show pos < pos + 1; omega
  rw [if_neg h15]
  by_cases h16 : charAt s pos = '='
  · rw [if_pos h16]; show pos < pos + 1; omega
  rw [if_neg h16]
  by_cases h17 : charAt s pos = '-'
  · rw [if_pos h17]; show pos < pos + 1; omega
  rw [if_neg h17]
  by_cases h18 : charAt s pos = '+'
  · rw [if_pos h18]; show pos < pos + 1; omega
  rw [if_neg h18]
  by_cases h19 : charAt s pos = '/'
  · rw [if_pos h19]; show pos < pos + 1; omega
  rw [if_neg h19]
  by_cases h20 : charAt s pos = '%'
  · rw [if_pos h20]; show pos < pos + 1; omega
  rw [if_neg h20]
  by_cases h21 : charAt s pos = '*'
  · rw [if_pos h21]; show pos < pos + 1; omega
  rw [if_neg h21]
  by_cases h22 : charAt s pos = '\x7b'
  · rw [if_pos h22]; show pos < pos + 1; omega
  rw [if_neg h22]
  by_cases h23 : charAt s pos = '\x7d'
  · rw [if_pos h23]; show pos < pos + 1; omega
  rw [if_neg h23]
  by_cases h24 : charAt s pos = '['
  · rw [if_pos h24]; show pos < pos + 1; omega
  rw [if_neg h24]
  by_cases h25 : charAt s pos = ']'
  · rw [if_pos h25]; show pos < pos + 1; omega
  rw [if_neg h25]
  by_cases h26 : charAt s pos = ';'
  · rw [if_pos h26]; show pos < pos + 1; omega
  rw [if_neg h26]
  by_cases h27 : charAt s pos = ','
  · rw [if_pos h27]; show pos < pos + 1; omega
  rw [if_neg h27]
  show pos < pos + 1
  omega

theorem tokenizeLoop_total (fuel : Nat) :
    ∀ (s : List Char) (pos : Nat), s.length - pos < fuel →
      (tokenizeLoop fuel s pos).isSome = true := by
  induction fuel with
  | zero => intro s pos h; omega
  | succ fuel ih =>
    intro s pos h
    unfold tokenizeLoop
    split
    · next hlt =>
      have hadv := tokStep_advance s pos
      have hrec := ih s (tokStep s pos).2.2 (by omega)
      match hstep : tokStep s pos with
      | (t?, w?, pos') =>
        rw [hstep] at hrec hadv
        simp only []
        match hres : tokenizeLoop fuel s pos' with
        | none => rw [hres] at hrec; simp at hrec
        | some (ts, ws) => simp
    · simp
/-- **C9.** For every input string, `tokenize` terminates — the loop of
`Tokenizer::tokenize` finishes within `length + 1` iterations, including
inputs that end inside an unterminated block comment (whose branch emits
`unterminatedCommentWarning`, the only diagnostic in the function, and
treats EOF as terminator by stepping past the end of the input). -/
theorem claim_C9_tokenize_terminates :
    ∀ s : List Char, (tokenize s).isSome = true :=
  fun s => tokenizeLoop_total (s.length + 1) s 0 (by omega)

/-! ## Generator invariants -/

mutual
theorem genStmtBlock_mono (st : GenSt) (s : Stmt) :
    st.stackOffset ≤ (genStmtBlock st s).stackOffset ∧
      min st.minOff st.stackOffset ≤ (genStmtBlock st s).minOff := by
  cases s with
  | exitS e =>
    simp only [genStmtBlock, genExitCode, emit]
    exact ⟨le_refl _, min_le_left _ _⟩
  | letS v e =>
    simp only [genStmtBlock]
    unfold genLetCode
    split
    · exact ⟨le_refl _, min_le_left _ _⟩
    · split
      · simp only [emit]
        exact ⟨le_refl _, min_le_left _ _⟩
      · split
        · simp only [emit]
          exact ⟨le_refl _, min_le_left _ _⟩
        · simp only [emit, setOffset]
          constructor
          · omega
          · omega
  | block b =>
    obtain ⟨h1, h2⟩ := genBlockCode_inv st b
    simp only [genStmtBlock]
    omega
  | ifS cond tb =>
    obtain ⟨h1, h2⟩ := genIfCode_inv st cond tb none
    simp only [genStmtBlock]
    omega
  | ifElseS cond tb eb =>
    obtain ⟨h1, h2⟩ := genIfCode_inv st cond tb (some eb)
    simp only [genStmtBlock]
    omega
  | whileS cond body =>
    obtain ⟨h1, h2⟩ := genWhileCode_inv st cond body
    simp only [genStmtBlock]
    omega
  | assign v e =>
    simp only [genStmtBlock]
    unfold genAssignCode
    split
    · exact ⟨le_refl _, min_le_left _ _⟩
    · simp only [emit]
      exact ⟨le_refl _, min_le_left _ _⟩
  | print e =>
    simp only [genStmtBlock, genPrintCode, emit]
    exact ⟨le_refl _, min_le_left _ _⟩
  | arrayAssign a i v =>
    simp only [genStmtBlock, genArrayAssignCode, emit]
    exact ⟨le_refl _, min_le_left _ _⟩
termination_by 3 * sizeOf s
decreasing_by
  all_goals simp_wf
  all_goals try omega
  all_goals (have h1 : 0 < sizeOf condition := (by cases condition <;> simp_arith); omega)

theorem genStmts_mono (st : GenSt) (l : StmtList) :
    st.stackOffset ≤ (genStmts st l).stackOffset ∧
      min st.minOff st.stackOffset ≤ (genStmts st l).minOff := by
  cases l with
  | nil =>
    simp only [genStmts]
    exact ⟨le_refl _, min_le_left _ _⟩
  | cons s rest =>
    obtain ⟨a1, a2⟩ := genStmtBlock_mono st s
    obtain ⟨b1, b2⟩ := genStmts_mono (genStmtBlock st s) rest
    simp only [genStmts]
    omega
termination_by 3 * sizeOf l
decreasing_by
  all_goals simp_wf
  all_goals omega

theorem genBlockCode_inv (st : GenSt) (b : StmtList) :
    (genBlockCode st b).stackOffset = st.stackOffset ∧
      min st.minOff st.stackOffset ≤ (genBlockCode st b).minOff := by
  unfold genBlockCode
  dsimp only [emit]
  split
  · constructor
    · dsimp only [setOffset, emit]
    · dsimp only [setOffset, emit]
      refine le_min ?_ (min_le_right _ _)
      refine le_trans ?_ ((genStmts_mono _ b).2)
      exact le_refl _
  · next hnot =>
    constructor
    · dsimp only [emit]
      exact le_antisymm (not_lt.mp hnot) ((genStmts_mono _ b).1)
    · dsimp only [emit]
      refine le_trans ?_ ((genStmts_mono _ b).2)
      exact le_refl _
termination_by 3 * sizeOf b + 1
decreasing_by
  all_goals simp_wf

theorem genIfCode_inv (st : GenSt) (c : Expr) (t : StmtList) (els : Option StmtList) :
    (genIfCode st c t els).stackOffset = st.stackOffset ∧
      min st.minOff st.stackOffset ≤ (genIfCode st c t els).minOff := by
  unfold genIfCode
  cases els with
  | none =>
    dsimp only [emit]
    constructor
    · rw [(genBlockCode_inv _ t).1]
    · refine le_trans ?_ ((genBlockCode_inv _ t).2)
      exact le_refl _
  | some eb =>
    dsimp only [emit]
    constructor
    · rw [(genBlockCode_inv _ eb).1]
      dsimp only [emit]
      rw [(genBlockCode_inv _ t).1]
    · refine le_trans ?_ ((genBlockCode_inv _ eb).2)
      dsimp only [emit]
      rw [(genBlockCode_inv _ t).1]
      refine le_min ?_ (min_le_right _ _)
      refine le_trans ?_ ((genBlockCode_inv _ t).2)
      exact le_refl _
termination_by 3 * (sizeOf t + sizeOf els)
decreasing_by
  all_goals simp_wf
  all_goals omega

theorem genWhileCode_inv (st : GenSt) (c : Expr) (b : StmtList) :
    (genWhileCode st c b).stackOffset = st.stackOffset ∧
      min st.minOff st.stackOffset ≤ (genWhileCode st c b).minOff := by
  unfold genWhileCode
  dsimp only [emit]
  constructor
  · rw [(genBlockCode_inv _ b).1]
  · refine le_trans ?_ ((genBlockCode_inv _ b).2)
    exact le_refl _
termination_by 3 * sizeOf b + 2
decreasing_by
  all_goals simp_wf
end

/-- **C8.**  For every `Block` statement, at every nesting depth (the
invariant is stated for every generator state, hence for every context in
which `generateBlockCode` can be invoked): generating the block leaves
`stackOffset` exactly as it was on entry, and the running minimum of
`stackOffset` (the `minOff` instrumentation, updated at every assignment
to `stackOffset`) never drops below the entry value — the new `minOff` is
still at least `min` of the old `minOff` and the entry `stackOffset`. -/
theorem claim_C8_block_stackOffset_net_zero (st : GenSt) (b : StmtList) :
    (genBlockCode st b).stackOffset = st.stackOffset ∧
      min st.minOff st.stackOffset ≤ (genBlockCode st b).minOff :=
  genBlockCode_inv st b

/-! ## Claim theorems -/

/-- **C1** (code bug).  The claim says that for an `If` with an else
branch the generator emits, right after the then-block, an unconditional
jump to the end label.  The source instead emits `jmp` to the *else*
label (`generateIfCode` writes `"    jmp " << elseLabel`), so the else
block is always executed.  Evaluating the generator on a concrete
`if (1) {} else {}` statement shows the emitted line `jmp .if_else_0`
immediately after the then-block and no jump to `.if_end_0` anywhere. -/
theorem claim_C1_if_jump_targets_else :
    (genStmtBlock initialGenSt
        (.ifElseS (.intExpr ⟨.INT_LITERAL, some "1"⟩) .nil .nil)).out =
      ["global _start", "section .text", "_start:", "    push rbp", "    mov rbp, rsp",
       "    ; Début du if", "    mov rax, 1", "    cmp rax, 0", "    je .if_else_0",
       "    ; Début de bloc", "    ; Fin de bloc", "    jmp .if_else_0", ".if_else_0:",
       "    ; Début de bloc", "    ; Fin de bloc", ".if_end_0:", "    ; Fin du if"] ∧
    "    jmp .if_end_0" ∉ (genStmtBlock initialGenSt
        (.ifElseS (.intExpr ⟨.INT_LITERAL, some "1"⟩) .nil .nil)).out := by
  have h : (genStmtBlock initialGenSt
      (.ifElseS (.intExpr ⟨.INT_LITERAL, some "1"⟩) .nil .nil)).out =
      ["global _start", "section .text", "_start:", "    push rbp", "    mov rbp, rsp",
       "    ; Début du if", "    mov rax, 1", "    cmp rax, 0", "    je .if_else_0",
       "    ; Début de bloc", "    ; Fin de bloc", "    jmp .if_else_0", ".if_else_0:",
       "    ; Début de bloc", "    ; Fin de bloc", ".if_end_0:", "    ; Fin du if"] := by
    simp [genStmtBlock, genIfCode, genBlockCode, genStmts, genExpr, emit, setOffset,
      initialGenSt]
    decide
  exact ⟨h, by rw [h]; decide⟩

/-- **C2**, counterexample.  A program whose single top-level statement
is `x = 1;` (an `Assign`): the top-level dispatch of `generateAssembly`
has no `ASSIGN` case, so the statement falls into `default:` and only the
unsupported-instruction comment is emitted — in particular the expression
is never evaluated into `rax` (no `mov rax, 1` line) and no store is
emitted, contradicting the claim for top-level `Assign` statements. -/
theorem claim_C2_counterexample :
    (generateAssembly ⟨.cons (.assign ⟨.IDENTIFIER, some "x"⟩
        (.intExpr ⟨.INT_LITERAL, some "1"⟩)) .nil⟩).out =
      ["global _start", "section .text", "_start:", "    push rbp", "    mov rbp, rsp",
       "    ; Instruction non supportée", "    mov rax, 60", "    mov rdi, 0",
       "    syscall"] ∧
    "    mov rax, 1" ∉ (generateAssembly ⟨.cons (.assign ⟨.IDENTIFIER, some "x"⟩
        (.intExpr ⟨.INT_LITERAL, some "1"⟩)) .nil⟩).out := by
  have h : (generateAssembly ⟨.cons (.assign ⟨.IDENTIFIER, some "x"⟩
        (.intExpr ⟨.INT_LITERAL, some "1"⟩)) .nil⟩).out =
      ["global _start", "section .text", "_start:", "    push rbp", "    mov rbp, rsp",
       "    ; Instruction non supportée", "    mov rax, 60", "    mov rdi, 0",
       "    syscall"] := by
    simp [generateAssembly, genTopStmts, genStmtTop, emit, initialGenSt]
  exact ⟨h, by rw [h]; decide⟩

/-- **C2**, amended.  For an `Assign` statement *inside a block* whose
name resolves (innermost-to-outermost, `findVariableOffset`) to `off`,
the generator emits the expression code (result in `rax`) followed by the
store `mov [rbp-off], rax`, and changes nothing else in the generator
state; a *top-level* `Assign` instead hits the `default:` case of
`generateAssembly` and emits only `; Instruction non supportée`. -/
theorem claim_C2_assign_lowering (st st2 : GenSt) (v : Token) (e : Expr) (off : Int)
    (h : findVariableOffset (v.value.getD "") st.tables = some off) :
    genStmtBlock st (.assign v e) =
      emit st (genExpr st.tables e ++ ["    mov [rbp-" ++ toString off ++ "], rax"]) ∧
    genStmtTop st2 (.assign v e) =
      (emit st2 ["    ; Instruction non supportée"], false) := by
  constructor
  · simp [genStmtBlock, genAssignCode, h]
  · rfl

theorem claim_C2_assign_lowering_witness :
    genStmtBlock
        { tables := [[("x", 8)]], stackOffset := 8, minOff := 0, ifC := 0,
          whileC := 0, printC := 0, out := [] }
      (.assign ⟨.IDENTIFIER, some "x"⟩ (.intExpr ⟨.INT_LITERAL, some "1"⟩)) =
      emit
        { tables := [[("x", 8)]], stackOffset := 8, minOff := 0, ifC := 0,
          whileC := 0, printC := 0, out := [] }
        (genExpr
            ({ tables := [[("x", 8)]], stackOffset := 8, minOff := 0, ifC := 0,
               whileC := 0, printC := 0, out := [] } : GenSt).tables
            (.intExpr ⟨.INT_LITERAL, some "1"⟩) ++
          ["    mov [rbp-" ++ toString (8 : Int) ++ "], rax"]) ∧
    genStmtTop initialGenSt
        (.assign ⟨.IDENTIFIER, some "x"⟩ (.intExpr ⟨.INT_LITERAL, some "1"⟩)) =
      (emit initialGenSt ["    ; Instruction non supportée"], false) :=
  claim_C2_assign_lowering _ _ _ _ 8 (by decide)

/-- **C3**, counterexample.  A program whose single top-level statement
is `a[0] = 5;` (an `IndexAssign`): the top-level `ARRAY_ASSIGN` case of
`generateAssembly` calls `generateAssignCode` through a
`dynamic_cast<AssignStmt*>` that yields null for an `ArrayAssignStmt`, so
nothing at all is emitted for the statement — the output is just the
prologue and default epilogue, with no `mov [rbx], rax` store,
contradicting the claim for top-level `IndexAssign` statements. -/
theorem claim_C3_counterexample :
    (generateAssembly ⟨.cons (.arrayAssign (.varExpr ⟨.IDENTIFIER, some "a"⟩)
        (.intExpr ⟨.INT_LITERAL, some "0"⟩) (.intExpr ⟨.INT_LITERAL, some "5"⟩)) .nil⟩).out =
      ["global _start", "section .text", "_start:", "    push rbp", "    mov rbp, rsp",
       "    mov rax, 60", "    mov rdi, 0", "    syscall"] ∧
    "    mov [rbx], rax" ∉ (generateAssembly ⟨.cons
        (.arrayAssign (.varExpr ⟨.IDENTIFIER, some "a"⟩)
          (.intExpr ⟨.INT_LITERAL, some "0"⟩)
          (.intExpr ⟨.INT_LITERAL, some "5"⟩)) .nil⟩).out := by
  have h : (generateAssembly ⟨.cons (.arrayAssign (.varExpr ⟨.IDENTIFIER, some "a"⟩)
        (.intExpr ⟨.INT_LITERAL, some "0"⟩) (.intExpr ⟨.INT_LITERAL, some "5"⟩)) .nil⟩).out =
      ["global _start", "section .text", "_start:", "    push rbp", "    mov rbp, rsp",
       "    mov rax, 60", "    mov rdi, 0", "    syscall"] := by
    simp [generateAssembly, genTopStmts, genStmtTop, emit, initialGenSt]
  exact ⟨h, by rw [h]; decide⟩

/-- **C3**, amended.  For an `IndexAssign` statement *inside a block* the
generator emits exactly: value code, `push rax`, array-base code,
`push rax`, index code, `add rax, 1`, `imul rax, 8`, `pop rbx`,
`add rbx, rax`, `pop rax`, `mov [rbx], rax`; a *top-level* `IndexAssign`
emits nothing (failed `dynamic_cast` inside the `ARRAY_ASSIGN` case). -/
theorem claim_C3_index_assign_lowering (st st2 : GenSt) (a i v : Expr) :
    genStmtBlock st (.arrayAssign a i v) =
      emit st (genExpr st.tables v ++ ["    push rax"] ++ genExpr st.tables a ++
        ["    push rax"] ++ genExpr st.tables i ++
        ["    add rax, 1", "    imul rax, 8", "    pop rbx", "    add rbx, rax",
         "    pop rax", "    mov [rbx], rax"]) ∧
    genStmtTop st2 (.arrayAssign a i v) = (st2, false) := by
  constructor
  · simp [genStmtBlock, genArrayAssignCode]
  · rfl

/-- **C4** (code bug).  The claim says `parseAddition` never reads the
token vector at an index at or past its length.  Because its
loop-continuation condition is `(pos < size && tok == PLUS) || tok ==
MINUS`, the second disjunct reads `m_tokens[pos]` even when `pos = size`.
First conjunct: `parseAddition` itself, entered at cursor 2 of the
three-token sequence `a [ 1` — exactly the state reached from
`parse() → parseStatement → parseArrayAssignStmt → parseExpression` —
returns with the out-of-bounds flag set (the read happened at index
3 = length).  Second conjunct: the same flag propagates to the top of
`parseArrayAssignStmt` on that token sequence. -/
theorem claim_C4_parseAddition_oob_read :
    parseAddition [⟨.IDENTIFIER, some "a"⟩, ⟨.LBRACKET, some "["⟩,
        ⟨.INT_LITERAL, some "1"⟩] 15 2 =
      (some (.intExpr ⟨.INT_LITERAL, some "1"⟩), 3, true) ∧
    parseArrayAssignStmt [⟨.IDENTIFIER, some "a"⟩, ⟨.LBRACKET, some "["⟩,
        ⟨.INT_LITERAL, some "1"⟩] 20 0 = (none, 0, true) := by
  constructor <;> decide

/-- **C5** (confirmed).  For a `Binary` expression with operator `AND`
(resp. `OR`) the generator emits exactly: right-operand code, `push rax`,
left-operand code, `pop rbx`, and a single bitwise `and rax, rbx`
(resp. `or rax, rbx`) — the AND/OR case inserts no conditional jump
around the operand code, so both operands are always evaluated (no
short-circuit). -/
theorem claim_C5_and_or_no_shortcircuit (tables : List Scope) (l r : Expr) :
    genExpr tables (.binaryExpr l .AND r) =
      genExpr tables r ++ ["    push rax"] ++ genExpr tables l ++
        ["    pop rbx", "    and rax, rbx"] ∧
    genExpr tables (.binaryExpr l .OR r) =
      genExpr tables r ++ ["    push rax"] ++ genExpr tables l ++
        ["    pop rbx", "    or rax, rbx"] := by
  constructor <;> simp [genExpr, binOpLines]

/-- **C6** (confirmed).  For a `Binary` expression with operator `DIV`
(resp. `MOD`) the emitted operator sequence is `mov rcx, rbx`,
`xor rdx, rdx`, `div rcx` (for `MOD` followed by `mov rax, rdx`) —
unsigned `div` with `rdx` zeroed; no `cqo` sign extension and no `idiv`
appears in the sequence. -/
theorem claim_C6_div_mod_unsigned (tables : List Scope) (l r : Expr) :
    genExpr tables (.binaryExpr l .DIV r) =
      genExpr tables r ++ ["    push rax"] ++ genExpr tables l ++
        ["    pop rbx", "    mov rcx, rbx", "    xor rdx, rdx", "    div rcx"] ∧
    genExpr tables (.binaryExpr l .MOD r) =
      genExpr tables r ++ ["    push rax"] ++ genExpr tables l ++
        ["    pop rbx", "    mov rcx, rbx", "    xor rdx, rdx", "    div rcx",
         "    mov rax, rdx"] := by
  constructor <;> simp [genExpr, binOpLines]

/-- The element-initialisation loop of the `ARRAY` case, re-expressed
over the index-annotated element list: element `i` is stored at byte
offset `(i+1)*8` from the base kept at `[rsp]`. -/
theorem genArrayInit_enumFrom (tables : List Scope) (es : ExprList) (i : Nat) :
    genArrayInit tables es i =
      ((List.enumFrom i es.toList).map (fun p =>
        ["    mov rbx, [rsp]", "    push rbx"] ++ genExpr tables p.2 ++
          ["    pop rbx", "    mov [rbx + " ++ toString ((p.1 + 1) * 8) ++ "], rax"])).flatten := by
  cases es with
  | nil => simp [genArrayInit, ExprList.toList, List.enumFrom]
  | cons e rest =>
    have ih := genArrayInit_enumFrom tables rest (i + 1)
    simp [genArrayInit, ExprList.toList, List.enumFrom, ih]
termination_by sizeOf es

/-- **C7** (confirmed).  For an `Array` literal with `n` elements the
generator emits the `mmap` syscall preamble (`rax = 9`, `rdi = 0`,
`rsi = (n+1)*8`, `rdx = 3`, `r10 = 34`, `r8 = -1`, `r9 = 0`, `syscall`),
pushes the returned base, stores the count `n` into slot 0 at the base,
stores element `i` at `[base + (i+1)*8]` for each `i < n` (reloading the
base from `[rsp]` around each element), and finally pops the base back
into `rax` as the expression's value.  For `n = 0` the element list is
empty, so only the count slot (holding `0`) is written. -/
theorem claim_C7_array_literal_mmap_layout (tables : List Scope) (es : ExprList) :
    genExpr tables (.arrayExpr es) =
      ["    mov rax, 9", "    mov rdi, 0",
       "    mov rsi, " ++ toString ((es.length + 1) * 8),
       "    mov rdx, 3", "    mov r10, 34", "    mov r8, -1", "    mov r9, 0",
       "    syscall", "    push rax", "    mov rbx, [rsp]",
       "    mov qword [rbx], " ++ toString es.length] ++
      ((List.enumFrom 0 es.toList).map (fun p =>
        ["    mov rbx, [rsp]", "    push rbx"] ++ genExpr tables p.2 ++
          ["    pop rbx", "    mov [rbx + " ++ toString ((p.1 + 1) * 8) ++ "], rax"])).flatten ++
      ["    pop rax"] := by
  simp [genExpr, genArrayInit_enumFrom]

/-- **C10** (confirmed).  Whenever `parseArrayAssignStmt` fails, either
the cursor is restored to its entry value (all failure paths except the
final missing-semicolon check do `m_position = startPos`), or the
failure came from the final semicolon check: the `IDENT [ expr ] = expr`
prefix parsed successfully up to position `q` (`arrayAssignPrefixEnd`),
the token at `q` is not a semicolon (or `q` is past the end), and the
cursor is left at `q` — that check is the only one that does not
restore. -/
theorem claim_C10_arrayAssign_backtracks (toks : List Token) (fuel pos : Nat)
    (h : (parseArrayAssignStmt toks fuel pos).1 = none) :
    (parseArrayAssignStmt toks fuel pos).2.1 = pos ∨
    ∃ q, arrayAssignPrefixEnd toks fuel pos = some q ∧
      ¬(q < toks.length ∧ tokTypeAt toks q = .SEMICOLON) ∧
      (parseArrayAssignStmt toks fuel pos).2.1 = q := by
  cases fuel with
  | zero => left; rfl
  | succ fuel =>
    by_cases c1 : pos < toks.length ∧ tokTypeAt toks pos = .IDENTIFIER
    case neg => left; simp [parseArrayAssignStmt, c1]
    by_cases c2 : pos + 1 < toks.length ∧ tokTypeAt toks (pos + 1) = .LBRACKET
    case neg => left; simp [parseArrayAssignStmt, c1, c2]
    rcases hpe : parseExpression toks fuel (pos + 2) with ⟨r1, p1, o1⟩
    cases r1 with
    | none => left; simp [parseArrayAssignStmt, c1, c2, hpe]
    | some idx =>
      by_cases c3 : p1 < toks.length ∧ tokTypeAt toks p1 = .RBRACKET
      case neg => left; simp [parseArrayAssignStmt, c1, c2, hpe, c3]
      by_cases c4 : p1 + 1 < toks.length ∧ tokTypeAt toks (p1 + 1) = .EQUAL
      case neg => left; simp [parseArrayAssignStmt, c1, c2, hpe, c3, c4]
      rcases hpe2 : parseExpression toks fuel (p1 + 2) with ⟨r2, p2, o2⟩
      cases r2 with
      | none => left; simp [parseArrayAssignStmt, c1, c2, hpe, c3, c4, hpe2]
      | some value =>
        by_cases c5 : p2 < toks.length ∧ tokTypeAt toks p2 = .SEMICOLON
        case pos =>
          exfalso
          simp [parseArrayAssignStmt, c1, c2, hpe, c3, c4, hpe2, c5] at h
        case neg =>
          right
          refine ⟨p2, ?_, c5, ?_⟩
          · simp [arrayAssignPrefixEnd, c1, c2, hpe, c3, c4, hpe2]
          · simp [parseArrayAssignStmt, c1, c2, hpe, c3, c4, hpe2, c5]

theorem claim_C10_arrayAssign_backtracks_witness :
    (parseArrayAssignStmt [(⟨.IDENTIFIER, some "a"⟩ : Token)] 10 0).1 = none ∧
    ((parseArrayAssignStmt [(⟨.IDENTIFIER, some "a"⟩ : Token)] 10 0).2.1 = 0 ∨
     ∃ q, arrayAssignPrefixEnd [(⟨.IDENTIFIER, some "a"⟩ : Token)] 10 0 = some q ∧
       ¬(q < ([(⟨.IDENTIFIER, some "a"⟩ : Token)] : List Token).length ∧
           tokTypeAt [(⟨.IDENTIFIER, some "a"⟩ : Token)] q = .SEMICOLON) ∧
       (parseArrayAssignStmt [(⟨.IDENTIFIER, some "a"⟩ : Token)] 10 0).2.1 = q) :=
  ⟨by decide, claim_C10_arrayAssign_backtracks _ 10 0 (by decide)⟩
